import Mathlib

/-!
Verification development for the Gemma sampler
(`gemma/gm/text/_sampler_impl.py`).

The sampler's decoding state machine is shallowly embedded: jnp arrays become
lists, traced int32 scalars become `Nat`, and the external collaborators
(transformer model, tokenizer, rng splitting) are fields of a `SamplerEnv`
record, so every theorem below is parametric in them exactly where the source
treats them as opaque.  Logits are modelled as `Option Int`, with `none`
standing for the `-inf` value written by the forbidden-token masking.
-/

namespace Gemma

/-- Logit value: `none` models `-jnp.inf` (the value written by the
forbidden-token masking), `some x` models a finite logit. -/
abbrev Logit := Option Int

/-- A sampling policy, as used by `_sample_step`: `get_next_tokens` receives
the step logits (batch x vocab; the length-1 middle axis of the source is
squeezed away, absorbing the `[:, 0]` projection) and the step rng stream, and
returns one candidate token per sequence. -/
abbrev SamplingMethod := List (List Logit) → Nat → List Nat

/-- External collaborators of the sampler: the tokenizer special ids and
encode/decode maps, the transformer (`model` = one-step `apply`, plus
`init_cache`), the cache length, the vocabulary size (`num_embed`) and the
rng `split` operation.  `model` takes the last tokens, their positions, the
cache and the attention mask, and returns the per-sequence logits together
with the replacement cache. -/
structure SamplerEnv (Cache : Type) where
  PAD : Nat
  BOS : Nat
  EOS : Nat
  encode : String → List Nat
  decode : List Nat → String
  model : List Nat → List Nat → Cache → List (List Bool) → (List (List Logit)) × Cache
  initCache : Nat → Cache
  cacheLength : Nat
  num_embed : Nat
  split : Nat → Nat × Nat

/-- Embedding of `_SamplingState`: the single mutable state threaded through
every decode step. -/
structure SamplingState (Cache : Type) where
  decoding_step : Nat
  num_input_tokens : List Nat
  token_buffer : List (List Nat)
  positions : List (List Nat)
  cache : Cache
  done : List Bool
  total_sampling_steps : Nat
  logits_buffer : Option (List (List (List Logit)))
  forbidden_token_ids : Option (List Nat)
  rng : Nat

variable {Cache : Type}

/-- Embedding of `_compute_attention_masks`.  `jnp.maximum(t - W + 1, 0)` is
the truncated subtraction `t + 1 - W`; `jax.lax.dynamic_slice` clamps the
start index so the slice fits, hence the `min` with `row.length - max_seq_len`;
the `.at[:, :max_seq_len].set` over a ones array appends `true` placeholders.
The trailing `[:, None, :]` axis insertion is dropped (the mask is only handed
to the opaque model). -/
def computeAttentionMasks (time_step : Nat) (seq_len : Nat)
    (input_mask : List (List Bool)) : List (List Bool) :=
  input_mask.map (fun row =>
    let max_seq_len := min row.length seq_len
    let start := min (time_step + 1 - seq_len) (row.length - max_seq_len)
    let sliced := (row.drop start).take max_seq_len
    let padded := sliced ++ List.replicate (seq_len - max_seq_len) true
    List.zipWith (fun j v => decide (j ≤ time_step) && v) (List.range seq_len) padded)

/-- Modelled from the spec: `transformer_lib.build_positions_from_mask` is
imported from outside this repository's sources.  The spec says positions are
derived by counting non-pad tokens per row so that pad slots consume no
position numbers and a left-aligned prompt receives positions `0..len-1`;
entries are non-negative. -/
def buildPositionsFromMask (input_mask : List (List Bool)) : List (List Nat) :=
  input_mask.map (fun row =>
    (List.range row.length).map (fun j => (row.take (j + 1)).count true - 1))

/-- Overwrites the first `ids.length` entries of `base` with `ids`: embedding
of `buffer.at[i, :num_tokens].set(input_ids)`.  Entries of `ids` beyond the
length of `base` are dropped, so the result keeps the length of `base`. -/
def setRowStart (base : List α) (ids : List α) : List α :=
  ids.take base.length ++ base.drop ids.length

/-- Embedding of `Sampler.init_sample_state`. -/
def initSampleState (env : SamplerEnv Cache) (all_input_ids : List (List Nat))
    (total_sampling_steps : Nat) (include_logits : Bool)
    (forbidden_token_ids : Option (List Nat)) (rng : Nat) : SamplingState Cache :=
  let bsz := all_input_ids.length
  let num_input_tokens := all_input_ids.map List.length
  let buffer_size := total_sampling_steps + 1
  let token_buffer := all_input_ids.map (fun input_ids =>
    setRowStart (List.replicate buffer_size env.PAD) input_ids)
  let input_mask := all_input_ids.map (fun input_ids =>
    setRowStart (List.replicate buffer_size true) (input_ids.map (fun t => t != env.PAD)))
  let positions := buildPositionsFromMask input_mask
  let done := List.replicate bsz false
  let logits_buffer := if include_logits then
      some (List.replicate bsz
        (List.replicate buffer_size (List.replicate env.num_embed (some 0))))
    else none
  { decoding_step := 0
    num_input_tokens := num_input_tokens
    token_buffer := token_buffer
    positions := positions
    cache := env.initCache bsz
    done := done
    total_sampling_steps := total_sampling_steps
    logits_buffer := logits_buffer
    forbidden_token_ids := forbidden_token_ids
    rng := rng }

/-- Python truthiness of the `forbidden_token_ids` field in
`if sampler_state.forbidden_token_ids:`: `None` and the empty tuple are
falsy. -/
def forbiddenTruthy : Option (List Nat) → Bool
  | none => false
  | some l => !l.isEmpty

/-- Embedding of `logits.at[:, :, forbidden_token_ids].set(-jnp.inf)` on one
vocab row: the logit of every forbidden id is replaced by `none` (= `-inf`). -/
def setForbiddenRow (ids : List Nat) (row : List Logit) : List Logit :=
  List.zipWith (fun j x => if j ∈ ids then none else x) (List.range row.length) row

/-- The model invocation performed inside `Sampler._sample_step`: the last
accepted tokens, their positions, the cache and the attention mask are handed
to the transformer, which returns the step logits and the replacement cache. -/
def stepModelOut (env : SamplerEnv Cache) (s : SamplingState Cache) :
    (List (List Logit)) × Cache :=
  let decoding_step := s.decoding_step
  let last_token := s.token_buffer.map (fun row => row.getD decoding_step 0)
  let input_mask := s.token_buffer.map (fun row => row.map (fun t => t != env.PAD))
  let attention_mask := computeAttentionMasks decoding_step env.cacheLength input_mask
  let step_positions := s.positions.map (fun row => row.getD decoding_step 0)
  env.model last_token step_positions s.cache attention_mask

/-- The logits handed to the sampling policy at one step: the model logits,
with every forbidden vocabulary id set to `-inf` when `forbidden_token_ids`
is truthy. -/
def stepLogits (env : SamplerEnv Cache) (s : SamplingState Cache) :
    List (List Logit) :=
  let logits := (stepModelOut env s).1
  if forbiddenTruthy s.forbidden_token_ids then
    logits.map (setForbiddenRow (s.forbidden_token_ids.getD []))
  else logits

/-- The per-sequence next token chosen by `Sampler._sample_step`: the sampled
candidate, overridden by the already-stored next prompt token while the step
is still inside the prompt (`decoding_step < num_input_tokens - 1`). -/
def nextTokenCandidates (env : SamplerEnv Cache) (sampling : SamplingMethod)
    (s : SamplingState Cache) : List Nat :=
  let cand := sampling (stepLogits env s) ((env.split s.rng).2)
  (List.range s.token_buffer.length).map (fun i =>
    if s.decoding_step < s.num_input_tokens.getD i 0 - 1 then
      (s.token_buffer.getD i []).getD (s.decoding_step + 1) 0
    else cand.getD i 0)

/-- Embedding of `Sampler._sample_step`. -/
def sampleStep (env : SamplerEnv Cache) (sampling : SamplingMethod)
    (s : SamplingState Cache) : SamplingState Cache :=
  let decoding_step := s.decoding_step
  let logits := stepLogits env s
  let next_rng := (env.split s.rng).1
  let next_token_candidate := nextTokenCandidates env sampling s
  let token_buffer := List.zipWith (fun row t => row.set (decoding_step + 1) t)
    s.token_buffer next_token_candidate
  let logits_buffer := match s.logits_buffer with
    | some lb => some (List.zipWith (fun lrow lg => lrow.set (decoding_step + 1) lg) lb logits)
    | none => none
  let done := List.zipWith
    (fun d row => d || decide (row.getD (decoding_step + 1) 0 = env.EOS))
    s.done token_buffer
  { decoding_step := s.decoding_step + 1
    num_input_tokens := s.num_input_tokens
    token_buffer := token_buffer
    positions := s.positions
    cache := (stepModelOut env s).2
    done := done
    total_sampling_steps := s.total_sampling_steps
    logits_buffer := logits_buffer
    forbidden_token_ids := s.forbidden_token_ids
    rng := next_rng }

/-- The while-loop condition of `Sampler._sample_fn`:
`(decoding_step < total_sampling_steps) & any(not done)`. -/
def samplingCond (s : SamplingState Cache) : Bool :=
  decide (s.decoding_step < s.total_sampling_steps) && s.done.any (fun d => !d)

/-- Fuelled unfolding of the `jax.lax.while_loop` in `Sampler._sample_fn`. -/
def sampleLoopFuel (env : SamplerEnv Cache) (sampling : SamplingMethod) :
    Nat → SamplingState Cache → SamplingState Cache
  | 0, s => s
  | fuel + 1, s =>
      if samplingCond s then sampleLoopFuel env sampling fuel (sampleStep env sampling s)
      else s

/-- Embedding of `Sampler._sample_fn`: fuel `total_sampling_steps -
decoding_step` suffices because each step increments `decoding_step` by one
and the loop condition bounds it by `total_sampling_steps`. -/
def sampleFn (env : SamplerEnv Cache) (sampling : SamplingMethod)
    (s : SamplingState Cache) : SamplingState Cache :=
  sampleLoopFuel env sampling (s.total_sampling_steps - s.decoding_step) s

/-- Number of iterations the fuelled loop performs. -/
def sampleLoopCount (env : SamplerEnv Cache) (sampling : SamplingMethod) :
    Nat → SamplingState Cache → Nat
  | 0, _ => 0
  | fuel + 1, s =>
      if samplingCond s then
        sampleLoopCount env sampling fuel (sampleStep env sampling s) + 1
      else 0

/-- Number of iterations performed by `sampleFn`. -/
def sampleFnSteps (env : SamplerEnv Cache) (sampling : SamplingMethod)
    (s : SamplingState Cache) : Nat :=
  sampleLoopCount env sampling (s.total_sampling_steps - s.decoding_step) s

/-- First index at which a boolean list holds `true`, and `0` when none does:
the value of `jnp.argmax` on a boolean vector (argmax returns the first index
attaining the maximum). -/
def boolArgmax (l : List Bool) : Nat :=
  match l.findIdx? (fun b => b) with
  | some i => i
  | none => 0

/-- Per-row EOS index of `Sampler.mask_tokens_after_eos_ids`:
`where(eos_exists, argmax(equal(row, eos)), row_length)`. -/
def eosIndexOfRow (EOS : Nat) (row : List Nat) : Nat :=
  if row.any (fun t => t == EOS) then boolArgmax (row.map (fun t => t == EOS))
  else row.length

/-- Per-row body of `Sampler.mask_tokens_after_eos_ids`: the mask
`j <= eos_index` and the arithmetic blend `token * mask + PAD * (1 - mask)`. -/
def maskRowAfterEos (EOS PAD : Nat) (row : List Nat) : List Nat :=
  List.zipWith
    (fun j t =>
      t * (if j ≤ eosIndexOfRow EOS row then 1 else 0)
        + PAD * (1 - (if j ≤ eosIndexOfRow EOS row then 1 else 0)))
    (List.range row.length) row

/-- Embedding of `Sampler.mask_tokens_after_eos_ids`. -/
def maskTokensAfterEosIds (EOS PAD : Nat) (token_buffer : List (List Nat)) :
    List (List Nat) :=
  token_buffer.map (maskRowAfterEos EOS PAD)

/-- Embedding of `Sampler.tokenize`: prepend the BOS id to the encoded
prompt. -/
def tokenize (env : SamplerEnv Cache) (input_string : String) : List Nat :=
  env.BOS :: env.encode input_string

/-- The error message raised by `Sampler.__call__` for an invalid forbidden
token. -/
def forbiddenTokenErrorMsg : String :=
  "Forbidden tokens must map to single token ids in the vocab."

/-- Embedding of the forbidden-token validation loop at the top of
`Sampler.__call__`: each token is encoded and must map to exactly one id;
otherwise a `ValueError` is raised before anything else runs. -/
def validateForbiddenTokens (encode : String → List Nat) :
    List String → Except String (List Nat)
  | [] => Except.ok []
  | token :: rest =>
      let token_id := encode token
      if token_id.length ≠ 1 then Except.error forbiddenTokenErrorMsg
      else do
        let ids ← validateForbiddenTokens encode rest
        Except.ok (token_id ++ ids)

/-- Python slice `l[start:stop]` for non-negative bounds. -/
def pySlice (l : List α) (start stop : Nat) : List α := (l.take stop).drop start

/-- The per-sequence token extraction of `Sampler.__call__`: slice the masked
buffer row from `0` (echo) or `num_input_tokens[i]` (no echo) up to
`total_sampling_steps`. -/
def extractTokens (echo : Bool) (total_sampling_steps : Nat)
    (masked_token_buffer : List (List Nat)) (num_input_tokens : List Nat) :
    List (List Nat) :=
  List.zipWith
    (fun row num_tokens =>
      pySlice row (if echo then 0 else num_tokens) total_sampling_steps)
    masked_token_buffer num_input_tokens

/-- The per-sequence logits extraction of `Sampler.__call__`, using the same
slice window as the token extraction. -/
def extractLogits (echo : Bool) (total_sampling_steps : Nat)
    (logits_buffer : List (List (List Logit))) (num_input_tokens : List Nat) :
    List (List (List Logit)) :=
  List.zipWith
    (fun row num_tokens =>
      pySlice row (if echo then 0 else num_tokens) total_sampling_steps)
    logits_buffer num_input_tokens

/-- Embedding of `SamplerOutput`. -/
structure SamplerOutput where
  text : List String
  logits : List (List (List Logit))
  tokens : List (List Nat)

/-- Embedding of `Sampler.__call__`; the returned pair carries the
`SamplerOutput` together with the final rng (the source stores the latter back
into `self._rng` for the next call).  The `max` over prompt lengths is folded
with base `0` (the source's `max(...)` over a nonempty batch). -/
def samplerCall (env : SamplerEnv Cache) (rng : Nat) (input_strings : List String)
    (total_generation_steps : Nat) (echo : Bool) (return_logits : Bool)
    (forbidden_tokens : Option (List String)) (sampling : SamplingMethod) :
    Except String (SamplerOutput × Nat) := do
  let forbidden_token_ids ← match forbidden_tokens with
    | none => Except.ok none
    | some tokens => do
        let ids ← validateForbiddenTokens env.encode tokens
        Except.ok (some ids)
  let all_input_ids := input_strings.map (fun x => tokenize env x)
  let max_input_length := (all_input_ids.map List.length).foldl max 0
  let total_sampling_steps := max_input_length + total_generation_steps
  let initial_sampling_state := initSampleState env all_input_ids
    total_sampling_steps return_logits forbidden_token_ids rng
  let sampling_state := sampleFn env sampling initial_sampling_state
  let masked_token_buffer :=
    maskTokensAfterEosIds env.EOS env.PAD sampling_state.token_buffer
  let out_tokens := extractTokens echo total_sampling_steps masked_token_buffer
    sampling_state.num_input_tokens
  let out_logits := if return_logits then
      extractLogits echo total_sampling_steps (sampling_state.logits_buffer.getD [])
        sampling_state.num_input_tokens
    else []
  let decoded_outputs := out_tokens.map env.decode
  Except.ok
    ({ text := decoded_outputs, logits := out_logits, tokens := out_tokens },
      sampling_state.rng)

/-- The prompt string of the end-to-end examples. -/
def helloStr : String := "Hello"

/-- The token list the prompt string encodes to in the concrete test
environment. -/
def helloTokens : List Nat := [72, 101]

/-- A concrete environment for concrete runs: PAD 0, EOS 1, BOS 2, "Hello"
encoding to `[72, 101]`, a trivial model and a simple rng split. -/
def testEnv : SamplerEnv Unit where
  PAD := 0
  BOS := 2
  EOS := 1
  encode := fun s => if s = "Hello" then helloTokens else []
  decode := fun _ => ""
  model := fun _ _ _ _ => ([List.replicate 8 (some 0)], ())
  initCache := fun _ => ()
  cacheLength := 4
  num_embed := 8
  split := fun r => (r + 1, r)

/-- A sampling policy that always returns vocabulary id 5 for a batch of
one. -/
def constFivePolicy : SamplingMethod := fun _ _ => [5]

/-- A scripted sampling policy for a batch of one: it returns the EOS id `1`
when the current rng stream value is `3` (which, under `testEnv.split` with
initial rng `0`, happens exactly at decoding step 3, i.e. on the second of the
three generation steps), and the non-EOS id `7` otherwise. -/
def stopPolicy : SamplingMethod := fun _ rng => if rng = 3 then [1] else [7]

/-- A sampling policy that picks, per sequence, the first vocabulary id whose
logit is finite, and the out-of-range index `row.length` when every logit of
the row is `-inf`; it never selects an in-range id whose logit is `-inf`. -/
def firstFinitePolicy : SamplingMethod := fun lg _ =>
  lg.map (fun row =>
    match row.findIdx? (fun x => x.isSome) with
    | some k => k
    | none => row.length)

/-- Concrete state at decoding step 2 (the first non-replay step) of a run
with forbidden id 5, used as a concrete input for the forbidden-token
property. -/
def c7WitnessState : SamplingState Unit :=
  sampleStep testEnv firstFinitePolicy
    (sampleStep testEnv firstFinitePolicy
      (initSampleState testEnv [[2, 72, 101]] 6 false (some [5]) 0))

/-- Projection of a batch-of-one sampling state onto the fields that drive
the loop control and the token output. -/
structure Batch1Proj where
  step : Nat
  n : Nat
  row : List Nat
  d : Bool
  total : Nat

/-- Action of one decode step on the batch-of-one projection, for a sampling
policy that always returns the single candidate `c`. -/
def projStep (EOS c : Nat) (p : Batch1Proj) : Batch1Proj :=
  let v := if p.step < p.n - 1 then p.row.getD (p.step + 1) 0 else c
  let newRow := p.row.set (p.step + 1) v
  { step := p.step + 1, n := p.n, row := newRow,
    d := p.d || decide (newRow.getD (p.step + 1) 0 = EOS), total := p.total }

/-- Loop condition on the batch-of-one projection. -/
def projCond (p : Batch1Proj) : Bool := decide (p.step < p.total) && !p.d

/-- Fuelled loop on the batch-of-one projection. -/
def projLoop (EOS c : Nat) : Nat → Batch1Proj → Batch1Proj
  | 0, p => p
  | fuel + 1, p =>
      if projCond p then projLoop EOS c fuel (projStep EOS c p) else p

/-! ## Frame lemmas for one decode step -/

theorem sampleStep_decoding_step (env : SamplerEnv Cache) (pol : SamplingMethod)
    (s : SamplingState Cache) :
    (sampleStep env pol s).decoding_step = s.decoding_step + 1 := rfl

theorem sampleStep_num_input_tokens (env : SamplerEnv Cache) (pol : SamplingMethod)
    (s : SamplingState Cache) :
    (sampleStep env pol s).num_input_tokens = s.num_input_tokens := rfl

theorem sampleStep_positions (env : SamplerEnv Cache) (pol : SamplingMethod)
    (s : SamplingState Cache) :
    (sampleStep env pol s).positions = s.positions := rfl

theorem sampleStep_total_sampling_steps (env : SamplerEnv Cache) (pol : SamplingMethod)
    (s : SamplingState Cache) :
    (sampleStep env pol s).total_sampling_steps = s.total_sampling_steps := rfl

theorem sampleStep_forbidden_token_ids (env : SamplerEnv Cache) (pol : SamplingMethod)
    (s : SamplingState Cache) :
    (sampleStep env pol s).forbidden_token_ids = s.forbidden_token_ids := rfl

theorem sampleStep_token_buffer (env : SamplerEnv Cache) (pol : SamplingMethod)
    (s : SamplingState Cache) :
    (sampleStep env pol s).token_buffer
      = List.zipWith (fun row t => row.set (s.decoding_step + 1) t)
          s.token_buffer (nextTokenCandidates env pol s) := rfl

theorem sampleStep_done (env : SamplerEnv Cache) (pol : SamplingMethod)
    (s : SamplingState Cache) :
    (sampleStep env pol s).done
      = List.zipWith
          (fun d row => d || decide (row.getD (s.decoding_step + 1) 0 = env.EOS))
          s.done ((sampleStep env pol s).token_buffer) := rfl

theorem length_nextTokenCandidates (env : SamplerEnv Cache) (pol : SamplingMethod)
    (s : SamplingState Cache) :
    (nextTokenCandidates env pol s).length = s.token_buffer.length := by
  simp [nextTokenCandidates]

theorem sampleStep_token_buffer_length (env : SamplerEnv Cache) (pol : SamplingMethod)
    (s : SamplingState Cache) :
    (sampleStep env pol s).token_buffer.length = s.token_buffer.length := by
  simp [sampleStep_token_buffer, length_nextTokenCandidates]

/-! ## Loop lemmas -/

theorem sampleLoopFuel_of_cond_false (env : SamplerEnv Cache) (pol : SamplingMethod)
    (fuel : Nat) (s : SamplingState Cache) (h : samplingCond s = false) :
    sampleLoopFuel env pol fuel s = s := by
  cases fuel <;> simp [sampleLoopFuel, h]

theorem sampleLoopFuel_total_sampling_steps (env : SamplerEnv Cache)
    (pol : SamplingMethod) :
    ∀ (fuel : Nat) (s : SamplingState Cache),
      (sampleLoopFuel env pol fuel s).total_sampling_steps = s.total_sampling_steps := by
  intro fuel
  induction fuel with
  | zero => intro s; rfl
  | succ f ih =>
      intro s
      by_cases h : samplingCond s
      · simp only [sampleLoopFuel, h, if_true]
        rw [ih, sampleStep_total_sampling_steps]
      · simp [sampleLoopFuel, h]

theorem sampleLoopFuel_num_input_tokens (env : SamplerEnv Cache)
    (pol : SamplingMethod) :
    ∀ (fuel : Nat) (s : SamplingState Cache),
      (sampleLoopFuel env pol fuel s).num_input_tokens = s.num_input_tokens := by
  intro fuel
  induction fuel with
  | zero => intro s; rfl
  | succ f ih =>
      intro s
      by_cases h : samplingCond s
      · simp only [sampleLoopFuel, h, if_true]
        rw [ih, sampleStep_num_input_tokens]
      · simp [sampleLoopFuel, h]

theorem sampleLoopFuel_positions (env : SamplerEnv Cache) (pol : SamplingMethod) :
    ∀ (fuel : Nat) (s : SamplingState Cache),
      (sampleLoopFuel env pol fuel s).positions = s.positions := by
  intro fuel
  induction fuel with
  | zero => intro s; rfl
  | succ f ih =>
      intro s
      by_cases h : samplingCond s
      · simp only [sampleLoopFuel, h, if_true]
        rw [ih, sampleStep_positions]
      · simp [sampleLoopFuel, h]

theorem sampleFn_unfold (env : SamplerEnv Cache) (pol : SamplingMethod)
    (s : SamplingState Cache) :
    sampleFn env pol s
      = if samplingCond s then sampleFn env pol (sampleStep env pol s) else s := by
  by_cases h : samplingCond s
  · have hlt : s.decoding_step < s.total_sampling_steps := by
      have := h
      simp only [samplingCond, Bool.and_eq_true, decide_eq_true_eq] at this
      exact this.1
    have hfuel : s.total_sampling_steps - s.decoding_step
        = (s.total_sampling_steps - (s.decoding_step + 1)) + 1 := by omega
    simp only [sampleFn, hfuel, sampleLoopFuel, h, if_true,
      sampleStep_decoding_step, sampleStep_total_sampling_steps]
  · simp only [h, if_false, sampleFn]
    exact sampleLoopFuel_of_cond_false env pol _ s (by simpa using h)

theorem sampleLoopCount_le_fuel (env : SamplerEnv Cache) (pol : SamplingMethod) :
    ∀ (fuel : Nat) (s : SamplingState Cache), sampleLoopCount env pol fuel s ≤ fuel := by
  intro fuel
  induction fuel with
  | zero => intro s; simp [sampleLoopCount]
  | succ f ih =>
      intro s
      by_cases h : samplingCond s
      · simp only [sampleLoopCount, h, if_true]
        exact Nat.succ_le_succ (ih _)
      · simp only [sampleLoopCount, h, if_false]
        exact Nat.zero_le _

theorem sampleLoopFuel_decoding_step_eq (env : SamplerEnv Cache) (pol : SamplingMethod) :
    ∀ (fuel : Nat) (s : SamplingState Cache),
      (sampleLoopFuel env pol fuel s).decoding_step
        = s.decoding_step + sampleLoopCount env pol fuel s := by
  intro fuel
  induction fuel with
  | zero => intro s; simp [sampleLoopFuel, sampleLoopCount]
  | succ f ih =>
      intro s
      by_cases h : samplingCond s
      · simp only [sampleLoopFuel, sampleLoopCount, h, if_true]
        rw [ih, sampleStep_decoding_step]
        omega
      · simp [sampleLoopFuel, sampleLoopCount, h]

/-- C5: the decode loop iterates exactly while
`decoding_step < total_sampling_steps` and at least one sequence is not done
(first conjunct: the while-loop fixpoint equation); `decoding_step` starts at
0 at initialization and each step increments it by exactly 1; the loop always
terminates having performed at most `total_sampling_steps` iterations
regardless of the done flags, and the iteration count is exactly the increase
of `decoding_step`. -/
theorem C5_loop_termination_bound (Cache : Type) (env : SamplerEnv Cache)
    (pol : SamplingMethod) :
    (∀ s : SamplingState Cache,
      sampleFn env pol s
        = if samplingCond s then sampleFn env pol (sampleStep env pol s) else s) ∧
    (∀ s : SamplingState Cache,
      (sampleStep env pol s).decoding_step = s.decoding_step + 1) ∧
    (∀ (all_input_ids : List (List Nat)) (total : Nat) (il : Bool)
        (fb : Option (List Nat)) (rng : Nat),
      (initSampleState env all_input_ids total il fb rng).decoding_step = 0) ∧
    (∀ s : SamplingState Cache, sampleFnSteps env pol s ≤ s.total_sampling_steps) ∧
    (∀ s : SamplingState Cache,
      (sampleFn env pol s).decoding_step = s.decoding_step + sampleFnSteps env pol s) := by
  refine ⟨sampleFn_unfold env pol, sampleStep_decoding_step env pol,
    fun _ _ _ _ _ => rfl, fun s => ?_, fun s => ?_⟩
  · calc sampleFnSteps env pol s
        ≤ s.total_sampling_steps - s.decoding_step := sampleLoopCount_le_fuel env pol _ s
      _ ≤ s.total_sampling_steps := Nat.sub_le _ _
  · exact sampleLoopFuel_decoding_step_eq env pol _ s

/-- C10: every decode step is frame-preserving on `num_input_tokens`,
`positions`, `total_sampling_steps` and `forbidden_token_ids` (only
`decoding_step`, `token_buffer`, `logits_buffer`, `cache`, `done` and `rng`
are rebuilt); in particular the `positions` array is computed once at
initialization and never updated during the loop. -/
theorem C10_step_frame (Cache : Type) (env : SamplerEnv Cache)
    (pol : SamplingMethod) :
    (∀ s : SamplingState Cache,
      (sampleStep env pol s).num_input_tokens = s.num_input_tokens ∧
      (sampleStep env pol s).positions = s.positions ∧
      (sampleStep env pol s).total_sampling_steps = s.total_sampling_steps ∧
      (sampleStep env pol s).forbidden_token_ids = s.forbidden_token_ids) ∧
    (∀ (fuel : Nat) (s : SamplingState Cache),
      (sampleLoopFuel env pol fuel s).positions = s.positions) := by
  exact ⟨fun s => ⟨rfl, rfl, rfl, rfl⟩,
    fun fuel s => sampleLoopFuel_positions env pol fuel s⟩

/-! ## Lemmas about the post-EOS masking -/

theorem length_maskRowAfterEos (EOS PAD : Nat) (row : List Nat) :
    (maskRowAfterEos EOS PAD row).length = row.length := by
  simp [maskRowAfterEos]

theorem maskRowAfterEos_getD (EOS PAD : Nat) (row : List Nat) (j : Nat)
    (hj : j < row.length) :
    (maskRowAfterEos EOS PAD row).getD j 0
      = if j ≤ eosIndexOfRow EOS row then row.getD j 0 else PAD := by
  unfold maskRowAfterEos
  rw [List.getD_eq_getElem?_getD, List.getElem?_zipWith, List.getElem?_range hj,
    List.getElem?_eq_getElem hj, List.getD_eq_getElem?_getD,
    List.getElem?_eq_getElem hj]
  by_cases hle : j ≤ eosIndexOfRow EOS row <;> simp [hle]

theorem eosIndexOfRow_eq_of_first (EOS : Nat) (row : List Nat) (k : Nat)
    (hk : k < row.length) (hEos : row.getD k 0 = EOS)
    (hfirst : ∀ j, j < k → row.getD j 0 ≠ EOS) :
    eosIndexOfRow EOS row = k := by
  have hget : row[k] = EOS := by
    rw [← hEos, List.getD_eq_getElem?_getD, List.getElem?_eq_getElem hk]
    rfl
  have hany : row.any (fun t => t == EOS) = true := by
    rw [List.any_eq_true]
    exact ⟨row[k], List.getElem_mem hk, by simp [hget]⟩
  have hfind : (row.map (fun t => t == EOS)).findIdx? (fun b => b) = some k := by
    rw [List.findIdx?_eq_some_iff_getElem]
    refine ⟨by simpa using hk, ?_, ?_⟩
    · simp [hget]
    · intro j hjk
      have hj : j < row.length := Nat.lt_trans hjk hk
      have : row.getD j 0 ≠ EOS := hfirst j hjk
      rw [List.getD_eq_getElem?_getD, List.getElem?_eq_getElem hj] at this
      simp only [List.getElem_map]
      simpa using this
  unfold eosIndexOfRow boolArgmax
  rw [hany, if_pos rfl, hfind]

theorem maskRowAfterEos_of_not_mem (EOS PAD : Nat) (row : List Nat)
    (h : EOS ∉ row) :
    maskRowAfterEos EOS PAD row = row := by
  have hidx : eosIndexOfRow EOS row = row.length := by
    unfold eosIndexOfRow
    have hany : row.any (fun t => t == EOS) = false := by
      rw [List.any_eq_false]
      intro x hx
      simp only [beq_iff_eq]
      exact fun hxe => h (hxe ▸ hx)
    simp [hany]
  apply List.ext_getElem?
  intro i
  unfold maskRowAfterEos
  rw [List.getElem?_zipWith]
  by_cases hi : i < row.length
  · rw [List.getElem?_range hi, List.getElem?_eq_getElem hi]
    simp [hidx, Nat.le_of_lt hi]
  · have h1 : (List.range row.length)[i]? = none := by
      rw [List.getElem?_eq_none_iff]
      simpa using Nat.le_of_not_lt hi
    have h2 : row[i]? = none := by
      rw [List.getElem?_eq_none_iff]
      exact Nat.le_of_not_lt hi
    rw [h1, h2]

theorem maskTokensAfterEosIds_getD (EOS PAD : Nat) (buf : List (List Nat))
    (i : Nat) :
    (maskTokensAfterEosIds EOS PAD buf).getD i []
      = maskRowAfterEos EOS PAD (buf.getD i []) := by
  unfold maskTokensAfterEosIds
  by_cases hi : i < buf.length
  · rw [List.getD_eq_getElem?_getD, List.getElem?_map, List.getElem?_eq_getElem hi,
      List.getD_eq_getElem?_getD, List.getElem?_eq_getElem hi]
    rfl
  · have h1 : (buf.map (maskRowAfterEos EOS PAD))[i]? = none := by
      rw [List.getElem?_eq_none_iff]
      simpa using Nat.le_of_not_lt hi
    have h2 : buf[i]? = none := by
      rw [List.getElem?_eq_none_iff]
      exact Nat.le_of_not_lt hi
    rw [List.getD_eq_getElem?_getD, h1, List.getD_eq_getElem?_getD, h2]
    rfl

/-- C1 counterexample: for the buffer row `[7, 1, 9]` with EOS id 1 and PAD
id 0, the first EOS occurrence is at index 1, yet the masked buffer retains
the EOS token at that index instead of overwriting it with PAD. -/
theorem C1_counterexample :
    ([7, 1, 9] : List Nat).findIdx? (fun t => t == 1) = some 1 ∧
    ((maskTokensAfterEosIds 1 0 [[7, 1, 9]]).getD 0 []).getD 1 0 = 1 ∧
    (1 : Nat) ≠ 0 := by decide

/-- C1 (amended): in the output-extraction phase each buffer row is scanned
for the first EOS occurrence; every position strictly after that index is
overwritten with PAD, while the first EOS itself and every position before it
are retained; if no EOS occurs in the row, the row is left untouched. -/
theorem C1_mask_after_eos (EOS PAD : Nat) (buf : List (List Nat)) (i : Nat) :
    (EOS ∉ buf.getD i [] →
      (maskTokensAfterEosIds EOS PAD buf).getD i [] = buf.getD i []) ∧
    (∀ k, k < (buf.getD i []).length → (buf.getD i []).getD k 0 = EOS →
      (∀ j, j < k → (buf.getD i []).getD j 0 ≠ EOS) →
      (∀ j, j ≤ k →
        ((maskTokensAfterEosIds EOS PAD buf).getD i []).getD j 0
          = (buf.getD i []).getD j 0) ∧
      (∀ j, k < j → j < (buf.getD i []).length →
        ((maskTokensAfterEosIds EOS PAD buf).getD i []).getD j 0 = PAD)) := by
  rw [maskTokensAfterEosIds_getD]
  constructor
  · intro h
    exact maskRowAfterEos_of_not_mem EOS PAD _ h
  · intro k hk hEos hfirst
    have hidx := eosIndexOfRow_eq_of_first EOS _ k hk hEos hfirst
    constructor
    · intro j hj
      rw [maskRowAfterEos_getD EOS PAD _ j (Nat.lt_of_le_of_lt hj hk), hidx,
        if_pos hj]
    · intro j hkj hjlen
      rw [maskRowAfterEos_getD EOS PAD _ j hjlen, hidx,
        if_neg (Nat.not_le.mpr hkj)]

/-- Witness for C1: on the concrete buffer `[[7, 1, 9]]` with EOS 1 and PAD 0
(first EOS at index 1), the masked row retains index 1 and pads index 2. -/
theorem C1_witness :
    ((maskTokensAfterEosIds 1 0 [[7, 1, 9]]).getD 0 []).getD 1 0
        = (([[7, 1, 9]] : List (List Nat)).getD 0 []).getD 1 0 ∧
    ((maskTokensAfterEosIds 1 0 [[7, 1, 9]]).getD 0 []).getD 2 0 = 0 :=
  ⟨((C1_mask_after_eos 1 0 [[7, 1, 9]] 0).2 1 (by decide) (by decide)
      (by decide)).1 1 (by decide),
   ((C1_mask_after_eos 1 0 [[7, 1, 9]] 0).2 1 (by decide) (by decide)
      (by decide)).2 2 (by decide) (by decide)⟩

/-- C2: in the final per-sequence output, no token strictly after the first
EOS occurrence is non-PAD; concretely, for the "Hello" prompt with three
generation steps and a policy returning EOS on the second generation step,
the echo=false output tokens are `[tok1, EOS, PAD] = [7, 1, 0]`. -/
theorem C2_post_eos_masking :
    (∀ (EOS PAD : Nat) (buf : List (List Nat)) (i k j : Nat),
      k < (buf.getD i []).length → (buf.getD i []).getD k 0 = EOS →
      (∀ j', j' < k → (buf.getD i []).getD j' 0 ≠ EOS) →
      k < j → j < (buf.getD i []).length →
      ((maskTokensAfterEosIds EOS PAD buf).getD i []).getD j 0 = PAD) ∧
    (samplerCall testEnv 0 [helloStr] 3 false false none stopPolicy).map
        (fun p => p.1.tokens) = Except.ok [[7, 1, 0]] := by
  constructor
  · intro EOS PAD buf i k j hk hEos hfirst hkj hjlen
    rw [maskTokensAfterEosIds_getD, maskRowAfterEos_getD EOS PAD _ j hjlen,
      eosIndexOfRow_eq_of_first EOS _ k hk hEos hfirst,
      if_neg (Nat.not_le.mpr hkj)]
  · rfl

/-- Witness for C2: on the final buffer `[[2, 72, 101, 7, 1, 0, 0]]` of the
concrete stopping run (first EOS at index 4), the masked row is PAD at
index 5. -/
theorem C2_witness :
    ((maskTokensAfterEosIds 1 0 [[2, 72, 101, 7, 1, 0, 0]]).getD 0 []).getD 5 0
      = 0 :=
  C2_post_eos_masking.1 1 0 [[2, 72, 101, 7, 1, 0, 0]] 0 4 5 (by decide)
    (by decide) (by decide) (by decide) (by decide)

/-! ## Forbidden-token validation -/

theorem validateForbiddenTokens_error (encode : String → List Nat) :
    ∀ tokens : List String, (∃ t ∈ tokens, (encode t).length ≠ 1) →
      validateForbiddenTokens encode tokens
        = Except.error forbiddenTokenErrorMsg := by
  intro tokens
  induction tokens with
  | nil => intro h; simp at h
  | cons t ts ih =>
      intro h
      by_cases hl : (encode t).length = 1
      · have hrec : validateForbiddenTokens encode ts
            = Except.error forbiddenTokenErrorMsg := by
          apply ih
          rcases h with ⟨u, hu, hne⟩
          rcases List.mem_cons.mp hu with rfl | hu'
          · exact absurd hl hne
          · exact ⟨u, hu', hne⟩
        simp only [validateForbiddenTokens, hrec]
        split <;> rfl
      · simp only [validateForbiddenTokens]
        split
        · rfl
        · rename_i h'
          exact absurd (not_not.mp h') hl

/-- C6: if any forbidden-token string does not map to exactly one vocabulary
id under the tokenizer, the call fails with the validation error immediately:
the result is the error for every model, tokenizer decode, sampling policy,
prompt list and flag combination, so no tokenization of prompts, state
construction or model invocation can influence it. -/
theorem C6_forbidden_validation_error (Cache : Type) (env : SamplerEnv Cache)
    (pol : SamplingMethod) (rng : Nat) (input_strings : List String)
    (total_generation_steps : Nat) (echo return_logits : Bool)
    (tokens : List String) (h : ∃ t ∈ tokens, (env.encode t).length ≠ 1) :
    samplerCall env rng input_strings total_generation_steps echo return_logits
        (some tokens) pol
      = Except.error forbiddenTokenErrorMsg := by
  have hv := validateForbiddenTokens_error env.encode tokens h
  simp only [samplerCall, hv]
  rfl

/-- Witness for C6: the concrete environment encodes "ab" to a list whose
length is not 1, and the concrete call fails with the validation error. -/
theorem C6_witness :
    (∃ t ∈ ["ab"], (testEnv.encode t).length ≠ 1) ∧
    samplerCall testEnv 0 [helloStr] 3 false false (some ["ab"]) stopPolicy
      = Except.error forbiddenTokenErrorMsg :=
  ⟨⟨"ab", by decide, by decide⟩,
    C6_forbidden_validation_error Unit testEnv stopPolicy 0 [helloStr] 3 false
      false ["ab"] ⟨"ab", by decide, by decide⟩⟩

/-! ## Slice-window lemmas -/

theorem length_pySlice (l : List α) (start stop : Nat) :
    (pySlice l start stop).length = min stop l.length - start := by
  simp [pySlice]

theorem take_set_self (l : List α) (n : Nat) (x : α) :
    (l.set n x).take n = l.take n := by
  apply List.ext_getElem?
  intro i
  rw [List.getElem?_take, List.getElem?_take]
  by_cases hi : i < n
  · rw [if_pos hi, if_pos hi, List.getElem?_set_ne (by omega)]
  · rw [if_neg hi, if_neg hi]

theorem extractTokens_getD (echo : Bool) (total : Nat)
    (masked : List (List Nat)) (nums : List Nat) (i : Nat)
    (hi : i < masked.length) (hi' : i < nums.length) :
    (extractTokens echo total masked nums).getD i []
      = pySlice (masked.getD i []) (if echo then 0 else nums.getD i 0) total := by
  unfold extractTokens
  rw [List.getD_eq_getElem?_getD, List.getElem?_zipWith,
    List.getElem?_eq_getElem hi, List.getElem?_eq_getElem hi']
  rw [List.getD_eq_getElem?_getD (l := masked), List.getElem?_eq_getElem hi,
    List.getD_eq_getElem?_getD (l := nums), List.getElem?_eq_getElem hi']
  rfl

/-- C8: the extracted output token list of sequence `i` has length
`total_sampling_steps - num_input_tokens[i]` with echo off and
`total_sampling_steps` with echo on; and since in both modes the slice ends
at index `total_sampling_steps`, the buffer slot at that index never reaches
the output (overwriting it changes nothing). -/
theorem C8_slice_window (total : Nat) (masked : List (List Nat))
    (nums : List Nat) (i : Nat)
    (hi : i < masked.length) (hi' : i < nums.length)
    (hrow : (masked.getD i []).length = total + 1)
    (hn : nums.getD i 0 ≤ total) :
    ((extractTokens false total masked nums).getD i []).length
        = total - nums.getD i 0 ∧
    ((extractTokens true total masked nums).getD i []).length = total ∧
    (∀ (x : Nat) (echo : Bool),
      extractTokens echo total (masked.map (fun row => row.set total x)) nums
        = extractTokens echo total masked nums) := by
  refine ⟨?_, ?_, ?_⟩
  · rw [extractTokens_getD false total masked nums i hi hi', length_pySlice,
      hrow]
    simp
  · rw [extractTokens_getD true total masked nums i hi hi', length_pySlice,
      hrow]
    simp
  · intro x echo
    unfold extractTokens
    apply List.ext_getElem?
    intro k
    rw [List.getElem?_zipWith, List.getElem?_zipWith, List.getElem?_map]
    cases hmk : masked[k]? with
    | none => rfl
    | some row =>
        cases hnk : nums[k]? with
        | none => rfl
        | some n =>
            show some (pySlice (row.set total x) (if echo then 0 else n) total)
              = some (pySlice row (if echo then 0 else n) total)
            unfold pySlice
            rw [take_set_self]

/-- Witness for C8: a concrete 3-slot row with `total = 2` and one prompt
token: the echo-off output has length 1, the echo-on output has length 2, and
overwriting the slot at index 2 does not change the extraction. -/
theorem C8_witness :
    ((extractTokens false 2 [[5, 6, 7]] [1]).getD 0 []).length = 2 - 1 ∧
    ((extractTokens true 2 [[5, 6, 7]] [1]).getD 0 []).length = 2 ∧
    extractTokens false 2 ([[5, 6, 7]].map (fun row => row.set 2 9)) [1]
      = extractTokens false 2 [[5, 6, 7]] [1] := by
  have h := C8_slice_window 2 [[5, 6, 7]] [1] 0 (by decide) (by decide)
    (by decide) (by decide)
  exact ⟨h.1, h.2.1, h.2.2 9 false⟩

/-! ## Per-row lemmas for one decode step -/

theorem nextTokenCandidates_getD (env : SamplerEnv Cache) (pol : SamplingMethod)
    (s : SamplingState Cache) (i : Nat) (hi : i < s.token_buffer.length) :
    (nextTokenCandidates env pol s).getD i 0
      = if s.decoding_step < s.num_input_tokens.getD i 0 - 1 then
          (s.token_buffer.getD i []).getD (s.decoding_step + 1) 0
        else (pol (stepLogits env s) ((env.split s.rng).2)).getD i 0 := by
  unfold nextTokenCandidates
  rw [List.getD_eq_getElem?_getD, List.getElem?_map, List.getElem?_range hi]
  rfl

theorem sampleStep_token_buffer_getD (env : SamplerEnv Cache)
    (pol : SamplingMethod) (s : SamplingState Cache) (i : Nat) :
    (sampleStep env pol s).token_buffer.getD i []
      = (s.token_buffer.getD i []).set (s.decoding_step + 1)
          ((nextTokenCandidates env pol s).getD i 0) := by
  rw [sampleStep_token_buffer]
  by_cases hi : i < s.token_buffer.length
  · have hi' : i < (nextTokenCandidates env pol s).length := by
      rw [length_nextTokenCandidates]; exact hi
    rw [List.getD_eq_getElem?_getD, List.getElem?_zipWith,
      List.getElem?_eq_getElem hi, List.getElem?_eq_getElem hi']
    rw [List.getD_eq_getElem?_getD (l := s.token_buffer),
      List.getElem?_eq_getElem hi,
      List.getD_eq_getElem?_getD (l := nextTokenCandidates env pol s),
      List.getElem?_eq_getElem hi']
    rfl
  · have h1 : (List.zipWith (fun row t => row.set (s.decoding_step + 1) t)
        s.token_buffer (nextTokenCandidates env pol s))[i]? = none := by
      rw [List.getElem?_eq_none_iff]
      simp only [List.length_zipWith, length_nextTokenCandidates, Nat.min_self]
      exact Nat.le_of_not_lt hi
    have h2 : s.token_buffer.getD i [] = [] := by
      rw [List.getD_eq_getElem?_getD,
        List.getElem?_eq_none_iff.mpr (Nat.le_of_not_lt hi)]
      rfl
    rw [List.getD_eq_getElem?_getD, h1, h2]
    rfl

theorem getD_set_self (l : List Nat) (j : Nat) :
    (l.set j (l.getD j 0)).getD j 0 = l.getD j 0 := by
  rw [List.getD_eq_getElem?_getD, List.getElem?_set_self']
  cases h : l[j]? with
  | none => rw [List.getD_eq_getElem?_getD, h]; rfl
  | some v => rw [List.getD_eq_getElem?_getD, h]; simp

theorem sampleStep_prompt_getD (env : SamplerEnv Cache) (pol : SamplingMethod)
    (s : SamplingState Cache) (i j : Nat)
    (hj : j < s.num_input_tokens.getD i 0) :
    ((sampleStep env pol s).token_buffer.getD i []).getD j 0
      = (s.token_buffer.getD i []).getD j 0 := by
  rw [sampleStep_token_buffer_getD]
  by_cases hji : j = s.decoding_step + 1
  · subst hji
    have hrepl : s.decoding_step < s.num_input_tokens.getD i 0 - 1 := by omega
    by_cases hi : i < s.token_buffer.length
    · rw [nextTokenCandidates_getD env pol s i hi, if_pos hrepl]
      exact getD_set_self _ _
    · have h0 : s.token_buffer.getD i [] = [] := by
        rw [List.getD_eq_getElem?_getD,
          List.getElem?_eq_none_iff.mpr (Nat.le_of_not_lt hi)]
        rfl
      rw [h0]
      rfl
  · rw [List.getD_eq_getElem?_getD, List.getElem?_set_ne (Ne.symm hji),
      ← List.getD_eq_getElem?_getD]

theorem sampleLoopFuel_prompt_getD (env : SamplerEnv Cache) (pol : SamplingMethod) :
    ∀ (fuel : Nat) (s : SamplingState Cache) (i j : Nat),
      j < s.num_input_tokens.getD i 0 →
      ((sampleLoopFuel env pol fuel s).token_buffer.getD i []).getD j 0
        = (s.token_buffer.getD i []).getD j 0 := by
  intro fuel
  induction fuel with
  | zero => intro s i j hj; rfl
  | succ f ih =>
      intro s i j hj
      by_cases h : samplingCond s
      · simp only [sampleLoopFuel, h, if_true]
        rw [ih (sampleStep env pol s) i j
          (by rw [sampleStep_num_input_tokens]; exact hj)]
        exact sampleStep_prompt_getD env pol s i j hj
      · simp [sampleLoopFuel, h]

theorem setRowStart_getD (base ids : List Nat) (j : Nat)
    (hj : j < ids.length) (hle : ids.length ≤ base.length) :
    (setRowStart base ids).getD j 0 = ids.getD j 0 := by
  unfold setRowStart
  have h1 : j < (ids.take base.length).length := by
    rw [List.length_take]
    omega
  rw [List.getD_eq_getElem?_getD, List.getElem?_append, if_pos h1,
    List.getElem?_take, if_pos (by omega), ← List.getD_eq_getElem?_getD]

theorem initSampleState_prompt_getD (env : SamplerEnv Cache) :
    ∀ (all_input_ids : List (List Nat)) (total : Nat) (il : Bool)
      (fb : Option (List Nat)) (rng : Nat) (i j : Nat),
      j < (all_input_ids.getD i []).length →
      (all_input_ids.getD i []).length ≤ total + 1 →
      ((initSampleState env all_input_ids total il fb rng).token_buffer.getD
          i []).getD j 0
        = (all_input_ids.getD i []).getD j 0 := by
  intro all_input_ids total il fb rng i j hj hle
  by_cases hi : i < all_input_ids.length
  · have hbuf : (initSampleState env all_input_ids total il fb rng).token_buffer.getD i []
        = setRowStart (List.replicate (total + 1) env.PAD) (all_input_ids.getD i []) := by
      show (all_input_ids.map (fun input_ids =>
          setRowStart (List.replicate (total + 1) env.PAD) input_ids)).getD i [] = _
      rw [List.getD_eq_getElem?_getD, List.getElem?_map,
        List.getElem?_eq_getElem hi,
        List.getD_eq_getElem?_getD (l := all_input_ids),
        List.getElem?_eq_getElem hi]
      rfl
    rw [hbuf]
    exact setRowStart_getD _ _ j hj (by simpa using hle)
  · exfalso
    have : all_input_ids.getD i [] = [] := by
      rw [List.getD_eq_getElem?_getD,
        List.getElem?_eq_none_iff.mpr (Nat.le_of_not_lt hi)]
      rfl
    rw [this] at hj
    exact Nat.not_lt_zero j hj

/-- C3: for every sequence `i`, after any number of decode steps the prompt
region `token_buffer[i, :num_input_tokens[i]]` is unchanged (each step either
rewrites a prompt slot with the very token already stored there, or writes
outside the prompt region), and at initialization that region holds exactly
the tokenized prompt. -/
theorem C3_prompt_fidelity (Cache : Type) (env : SamplerEnv Cache)
    (pol : SamplingMethod) :
    (∀ (fuel : Nat) (s : SamplingState Cache) (i j : Nat),
      j < s.num_input_tokens.getD i 0 →
      ((sampleLoopFuel env pol fuel s).token_buffer.getD i []).getD j 0
        = (s.token_buffer.getD i []).getD j 0) ∧
    (∀ (all_input_ids : List (List Nat)) (total : Nat) (il : Bool)
        (fb : Option (List Nat)) (rng : Nat) (i j : Nat),
      j < (all_input_ids.getD i []).length →
      (all_input_ids.getD i []).length ≤ total + 1 →
      ((initSampleState env all_input_ids total il fb rng).token_buffer.getD
          i []).getD j 0
        = (all_input_ids.getD i []).getD j 0) :=
  ⟨sampleLoopFuel_prompt_getD env pol, initSampleState_prompt_getD env⟩

/-- Witness for C3: in the concrete constant-policy run, prompt slot 1 still
holds its original token after the six loop iterations, and initialization
wrote the prompt token there. -/
theorem C3_witness :
    ((sampleLoopFuel testEnv constFivePolicy 6
        (initSampleState testEnv [[2, 72, 101]] 6 false none 0)).token_buffer.getD
          0 []).getD 1 0
      = ((initSampleState testEnv [[2, 72, 101]] 6 false none
          0).token_buffer.getD 0 []).getD 1 0 ∧
    ((initSampleState testEnv [[2, 72, 101]] 6 false none 0).token_buffer.getD
        0 []).getD 1 0
      = (([[2, 72, 101]] : List (List Nat)).getD 0 []).getD 1 0 :=
  ⟨(C3_prompt_fidelity Unit testEnv constFivePolicy).1 6
      (initSampleState testEnv [[2, 72, 101]] 6 false none 0) 0 1 (by decide),
    (C3_prompt_fidelity Unit testEnv constFivePolicy).2 [[2, 72, 101]] 6 false
      none 0 0 1 (by decide) (by decide)⟩

/-! ## Done-flag monotonicity -/

theorem getD_false_lt_length (l : List Bool) (i : Nat)
    (h : l.getD i false = true) : i < l.length := by
  by_contra hi
  rw [List.getD_eq_getElem?_getD,
    List.getElem?_eq_none_iff.mpr (Nat.le_of_not_lt hi)] at h
  exact Bool.false_ne_true h

theorem sampleStep_done_length (env : SamplerEnv Cache) (pol : SamplingMethod)
    (s : SamplingState Cache) (hlen : s.done.length = s.token_buffer.length) :
    (sampleStep env pol s).done.length = (sampleStep env pol s).token_buffer.length := by
  rw [sampleStep_done, List.length_zipWith, sampleStep_token_buffer_length,
    hlen]
  omega

theorem sampleStep_done_getD_true (env : SamplerEnv Cache) (pol : SamplingMethod)
    (s : SamplingState Cache) (i : Nat)
    (hlen : s.done.length = s.token_buffer.length)
    (hd : s.done.getD i false = true) :
    (sampleStep env pol s).done.getD i false = true := by
  have hi : i < s.done.length := getD_false_lt_length _ _ hd
  have hi2 : i < (sampleStep env pol s).token_buffer.length := by
    rw [sampleStep_token_buffer_length]
    omega
  rw [sampleStep_done, List.getD_eq_getElem?_getD, List.getElem?_zipWith,
    List.getElem?_eq_getElem hi, List.getElem?_eq_getElem hi2]
  have : s.done[i] = true := by
    rw [List.getD_eq_getElem?_getD, List.getElem?_eq_getElem hi] at hd
    exact hd
  simp [this]

/-- C4: the done flag is monotonic: if a state has `done[i] = true` then after
any number of further decode-loop iterations `done[i]` is still `true` (each
step only ORs `done` with the EOS test on the newly written token). -/
theorem C4_done_monotonic (Cache : Type) (env : SamplerEnv Cache)
    (pol : SamplingMethod) :
    ∀ (fuel : Nat) (s : SamplingState Cache) (i : Nat),
      s.done.length = s.token_buffer.length →
      s.done.getD i false = true →
      (sampleLoopFuel env pol fuel s).done.getD i false = true := by
  intro fuel
  induction fuel with
  | zero => intro s i _ hd; exact hd
  | succ f ih =>
      intro s i hlen hd
      by_cases h : samplingCond s
      · simp only [sampleLoopFuel, h, if_true]
        exact ih (sampleStep env pol s) i
          (by
            rw [sampleStep_done_length env pol s hlen,
              sampleStep_token_buffer_length])
          (sampleStep_done_getD_true env pol s i hlen hd)
      · simpa [sampleLoopFuel, h] using hd

/-- Witness for C4: a concrete already-done state stays done after two loop
iterations. -/
theorem C4_witness :
    (sampleLoopFuel testEnv stopPolicy 2
      { decoding_step := 0, num_input_tokens := [1], token_buffer := [[1, 0]],
        positions := [[0, 1]], cache := (), done := [true],
        total_sampling_steps := 1, logits_buffer := none,
        forbidden_token_ids := none, rng := 0 }).done.getD 0 false = true :=
  C4_done_monotonic Unit testEnv stopPolicy 2
    { decoding_step := 0, num_input_tokens := [1], token_buffer := [[1, 0]],
      positions := [[0, 1]], cache := (), done := [true],
      total_sampling_steps := 1, logits_buffer := none,
      forbidden_token_ids := none, rng := 0 } 0 (by decide) (by decide)

/-! ## Forbidden-token masking at a decode step -/

theorem length_setForbiddenRow (ids : List Nat) (row : List Logit) :
    (setForbiddenRow ids row).length = row.length := by
  simp [setForbiddenRow]

theorem setForbiddenRow_getD (ids : List Nat) (row : List Logit) (f : Nat)
    (hf : f ∈ ids) (hlt : f < row.length) :
    (setForbiddenRow ids row).getD f (some 0) = none := by
  unfold setForbiddenRow
  rw [List.getD_eq_getElem?_getD, List.getElem?_zipWith, List.getElem?_range hlt,
    List.getElem?_eq_getElem hlt]
  simp [hf]

theorem stepLogits_of_forbidden (env : SamplerEnv Cache) (s : SamplingState Cache)
    (ids : List Nat) (hforb : s.forbidden_token_ids = some ids) (hne : ids ≠ []) :
    stepLogits env s = ((stepModelOut env s).1).map (setForbiddenRow ids) := by
  unfold stepLogits
  rw [hforb]
  simp [forbiddenTruthy, hne]

theorem getD_set_eq (l : List Nat) (j v : Nat) (hj : j < l.length) :
    (l.set j v).getD j 0 = v := by
  rw [List.getD_eq_getElem?_getD, List.getElem?_set_self',
    List.getElem?_eq_getElem hj]
  rfl

theorem firstFinitePolicy_ne_none :
    ∀ (lg : List (List Logit)) (r k : Nat),
      (lg.getD k []).getD ((firstFinitePolicy lg r).getD k 0) (some 0) ≠ none := by
  intro lg r k
  by_cases hk : k < lg.length
  · have hrow : (firstFinitePolicy lg r).getD k 0
        = match (lg.getD k []).findIdx? (fun x => x.isSome) with
          | some i => i
          | none => (lg.getD k []).length := by
      unfold firstFinitePolicy
      rw [List.getD_eq_getElem?_getD, List.getElem?_map,
        List.getElem?_eq_getElem hk, List.getD_eq_getElem?_getD (l := lg),
        List.getElem?_eq_getElem hk]
      rfl
    rw [hrow]
    cases hfind : (lg.getD k []).findIdx? (fun x => x.isSome) with
    | none =>
        rw [List.getD_eq_getElem?_getD,
          List.getElem?_eq_none_iff.mpr (Nat.le_refl _)]
        simp
    | some i =>
        rcases List.findIdx?_eq_some_iff_getElem.mp hfind with ⟨hlt, hp, _⟩
        rw [List.getD_eq_getElem?_getD, List.getElem?_eq_getElem hlt]
        simpa [Option.isSome_iff_ne_none] using hp
  · have h1 : lg.getD k [] = [] := by
      rw [List.getD_eq_getElem?_getD,
        List.getElem?_eq_none_iff.mpr (Nat.le_of_not_lt hk)]
      rfl
    rw [h1]
    simp

/-- C7: at a decode step with a non-empty forbidden set, the logits handed to
the sampling policy are negative infinity at every (in-range) forbidden
vocabulary id, so a sampling policy that never selects an id whose logit is
negative infinity cannot pick a forbidden id, and the token written at a
generation (non-prompt-replay) position differs from every forbidden id. -/
theorem C7_forbidden_token_masking (Cache : Type) (env : SamplerEnv Cache)
    (pol : SamplingMethod) (s : SamplingState Cache) (ids : List Nat) (i f : Nat)
    (hforb : s.forbidden_token_ids = some ids) (hne : ids ≠ [])
    (hpol : ∀ (lg : List (List Logit)) (r k : Nat),
      (lg.getD k []).getD ((pol lg r).getD k 0) (some 0) ≠ none)
    (hf : f ∈ ids)
    (hi : i < s.token_buffer.length)
    (hilg : i < (stepLogits env s).length)
    (hflt : f < ((stepLogits env s).getD i []).length)
    (hrep : ¬ s.decoding_step < s.num_input_tokens.getD i 0 - 1)
    (hbuf : s.decoding_step + 1 < (s.token_buffer.getD i []).length) :
    ((stepLogits env s).getD i []).getD f (some 0) = none ∧
    ((sampleStep env pol s).token_buffer.getD i []).getD (s.decoding_step + 1) 0
      ≠ f := by
  have hlg := stepLogits_of_forbidden env s ids hforb hne
  have hrowi : (stepLogits env s).getD i []
      = setForbiddenRow ids (((stepModelOut env s).1).getD i []) := by
    have hi' : i < ((stepModelOut env s).1).length := by
      rw [hlg, List.length_map] at hilg
      exact hilg
    rw [hlg, List.getD_eq_getElem?_getD, List.getElem?_map,
      List.getElem?_eq_getElem hi',
      List.getD_eq_getElem?_getD (l := (stepModelOut env s).1),
      List.getElem?_eq_getElem hi']
    rfl
  have hflt' : f < (((stepModelOut env s).1).getD i []).length := by
    rw [hrowi, length_setForbiddenRow] at hflt
    exact hflt
  have hmasked : ((stepLogits env s).getD i []).getD f (some 0) = none := by
    rw [hrowi]
    exact setForbiddenRow_getD ids _ f hf hflt'
  refine ⟨hmasked, ?_⟩
  have hwrite : ((sampleStep env pol s).token_buffer.getD i []).getD
      (s.decoding_step + 1) 0
      = (pol (stepLogits env s) ((env.split s.rng).2)).getD i 0 := by
    rw [sampleStep_token_buffer_getD, getD_set_eq _ _ _ hbuf,
      nextTokenCandidates_getD env pol s i hi, if_neg hrep]
  rw [hwrite]
  intro hcontra
  have := hpol (stepLogits env s) ((env.split s.rng).2) i
  rw [hcontra] at this
  exact this hmasked

/-- Witness for C7: in the concrete forbidden-token run at decoding step 2,
the logit of the forbidden id 5 is negative infinity and the written token is
not 5. -/
theorem C7_witness :
    ((stepLogits testEnv c7WitnessState).getD 0 []).getD 5 (some 0) = none ∧
    ((sampleStep testEnv firstFinitePolicy c7WitnessState).token_buffer.getD
        0 []).getD (c7WitnessState.decoding_step + 1) 0 ≠ 5 :=
  C7_forbidden_token_masking Unit testEnv firstFinitePolicy c7WitnessState [5]
    0 5 (by decide) (by decide) firstFinitePolicy_ne_none (by decide)
    (by decide) (by decide) (by decide) (by decide) (by decide)

/-! ## Batch-of-one simulation for constant policies -/

theorem sampleStep_batch1 (env : SamplerEnv Cache) (pol : SamplingMethod)
    (c : Nat) (hpol : ∀ (lg : List (List Logit)) (r : Nat), pol lg r = [c])
    (s : SamplingState Cache) (p : Batch1Proj)
    (h1 : s.token_buffer = [p.row]) (h3 : s.num_input_tokens = [p.n])
    (h2 : s.done = [p.d]) (h4 : s.decoding_step = p.step) :
    (sampleStep env pol s).token_buffer = [(projStep env.EOS c p).row] ∧
    (sampleStep env pol s).done = [(projStep env.EOS c p).d] := by
  have hnext : nextTokenCandidates env pol s
      = [if p.step < p.n - 1 then p.row.getD (p.step + 1) 0 else c] := by
    unfold nextTokenCandidates
    rw [hpol]
    have hr1 : List.range 1 = [0] := rfl
    simp [h1, h3, h4, hr1]
  have hbuf : (sampleStep env pol s).token_buffer = [(projStep env.EOS c p).row] := by
    rw [sampleStep_token_buffer, h1, hnext, h4]
    simp [projStep]
  refine ⟨hbuf, ?_⟩
  rw [sampleStep_done, h2, hbuf, h4]
  simp only [List.zipWith_cons_cons, List.zipWith_nil_right]
  rfl

theorem sampleLoopFuel_batch1 (env : SamplerEnv Cache) (pol : SamplingMethod)
    (c : Nat) (hpol : ∀ (lg : List (List Logit)) (r : Nat), pol lg r = [c]) :
    ∀ (fuel : Nat) (s : SamplingState Cache) (p : Batch1Proj),
      s.token_buffer = [p.row] → s.num_input_tokens = [p.n] →
      s.done = [p.d] → s.decoding_step = p.step →
      s.total_sampling_steps = p.total →
      (sampleLoopFuel env pol fuel s).token_buffer
          = [(projLoop env.EOS c fuel p).row] ∧
      (sampleLoopFuel env pol fuel s).done = [(projLoop env.EOS c fuel p).d] := by
  intro fuel
  induction fuel with
  | zero =>
      intro s p h1 h3 h2 h4 h5
      exact ⟨h1, h2⟩
  | succ f ih =>
      intro s p h1 h3 h2 h4 h5
      have hcond : samplingCond s = projCond p := by
        simp [samplingCond, projCond, h2, h4, h5]
      by_cases hc : projCond p = true
      · have hstep := sampleStep_batch1 env pol c hpol s p h1 h3 h2 h4
        simp only [sampleLoopFuel, projLoop, hcond, hc, if_true]
        exact ih (sampleStep env pol s) (projStep env.EOS c p) hstep.1
          (by rw [sampleStep_num_input_tokens, h3]; rfl)
          hstep.2
          (by rw [sampleStep_decoding_step, h4]; rfl)
          (by rw [sampleStep_total_sampling_steps, h5]; rfl)
      · have hcf : samplingCond s = false := by
          rw [hcond]
          exact Bool.not_eq_true _ |>.mp hc
        rw [sampleLoopFuel_of_cond_false env pol _ s hcf]
        have : projLoop env.EOS c (f + 1) p = p := by
          simp only [projLoop]
          rw [if_neg hc]
        rw [this]
        exact ⟨h1, h2⟩

theorem getD_mem_or_default (l : List Nat) (j d : Nat) :
    l.getD j d ∈ l ∨ l.getD j d = d := by
  by_cases hj : j < l.length
  · left
    rw [List.getD_eq_getElem?_getD, List.getElem?_eq_getElem hj]
    exact List.getElem_mem hj
  · right
    rw [List.getD_eq_getElem?_getD,
      List.getElem?_eq_none_iff.mpr (Nat.le_of_not_lt hj)]
    rfl

theorem projStep_no_eos (EOS c : Nat) (hc : c ≠ EOS) (h0 : EOS ≠ 0)
    (p : Batch1Proj) (hrow : ∀ t ∈ p.row, t ≠ EOS) (hd : p.d = false) :
    (∀ t ∈ (projStep EOS c p).row, t ≠ EOS) ∧ (projStep EOS c p).d = false := by
  have hv : (if p.step < p.n - 1 then p.row.getD (p.step + 1) 0 else c) ≠ EOS := by
    by_cases hlt : p.step < p.n - 1
    · rw [if_pos hlt]
      rcases getD_mem_or_default p.row (p.step + 1) 0 with h | h
      · exact hrow _ h
      · rw [h]; exact fun he => h0 he.symm
    · rw [if_neg hlt]; exact hc
  have hnewrow : ∀ t ∈ (projStep EOS c p).row, t ≠ EOS := by
    intro t ht
    simp only [projStep] at ht
    rcases List.mem_or_eq_of_mem_set ht with h | h
    · exact hrow t h
    · rw [h]; exact hv
  refine ⟨hnewrow, ?_⟩
  show (p.d || decide ((projStep EOS c p).row.getD (p.step + 1) 0 = EOS)) = false
  rw [hd, Bool.false_or, decide_eq_false_iff_not]
  rcases getD_mem_or_default (projStep EOS c p).row (p.step + 1) 0 with h | h
  · exact hnewrow _ h
  · rw [h]; exact fun he => h0 he.symm

theorem projLoop_d_false (EOS c : Nat) (hc : c ≠ EOS) (h0 : EOS ≠ 0) :
    ∀ (fuel : Nat) (p : Batch1Proj), (∀ t ∈ p.row, t ≠ EOS) → p.d = false →
      (projLoop EOS c fuel p).d = false := by
  intro fuel
  induction fuel with
  | zero => intro p _ hd; exact hd
  | succ f ih =>
      intro p hrow hd
      by_cases hcond : projCond p = true
      · simp only [projLoop, hcond, if_true]
        have hstep := projStep_no_eos EOS c hc h0 p hrow hd
        exact ih (projStep EOS c p) hstep.1 hstep.2
      · simp only [projLoop]
        rw [if_neg hcond]
        exact hd

theorem samplerCall_tokens_none (env : SamplerEnv Cache) (pol : SamplingMethod)
    (rng : Nat) (inputs : List String) (gen : Nat) (echo : Bool) :
    (samplerCall env rng inputs gen echo false none pol).map (fun p => p.1.tokens)
      = Except.ok (extractTokens echo
          (((inputs.map (fun x => tokenize env x)).map List.length).foldl max 0 + gen)
          (maskTokensAfterEosIds env.EOS env.PAD
            (sampleFn env pol
              (initSampleState env (inputs.map (fun x => tokenize env x))
                (((inputs.map (fun x => tokenize env x)).map List.length).foldl
                    max 0 + gen)
                false none rng)).token_buffer)
          (sampleFn env pol
            (initSampleState env (inputs.map (fun x => tokenize env x))
              (((inputs.map (fun x => tokenize env x)).map List.length).foldl
                  max 0 + gen)
              false none rng)).num_input_tokens) := rfl

/-- C9: for any model, with the "Hello" prompt (tokenizing after the BOS
prepend to `[BOS, 72, 101]`), three generation steps, no forbidden tokens,
echo off and a sampling policy that always returns vocabulary id 5 (with
5 different from the EOS id 1), the call returns output tokens `[5, 5, 5]`
and the done flag stays `[false]` after any number of loop iterations. -/
theorem C9_end_to_end (Cache : Type) (env : SamplerEnv Cache)
    (hPAD : env.PAD = 0) (hBOS : env.BOS = 2) (hEOS : env.EOS = 1)
    (henc : env.encode helloStr = helloTokens) :
    (samplerCall env 0 [helloStr] 3 false false none constFivePolicy).map
        (fun p => p.1.tokens) = Except.ok [[5, 5, 5]] ∧
    (∀ fuel : Nat,
      (sampleLoopFuel env constFivePolicy fuel
          (initSampleState env ([helloStr].map (fun x => tokenize env x)) 6
            false none 0)).done = [false]) := by
  have hpol : ∀ (lg : List (List Logit)) (r : Nat), constFivePolicy lg r = [5] :=
    fun _ _ => rfl
  have hids : [helloStr].map (fun x => tokenize env x) = [[2, 72, 101]] := by
    simp [tokenize, hBOS, henc, helloTokens]
  have hbuf0 : (initSampleState env [[2, 72, 101]] 6 false none 0).token_buffer
      = [[2, 72, 101, 0, 0, 0, 0]] := by
    show [setRowStart (List.replicate (6 + 1) env.PAD) [2, 72, 101]]
      = [[2, 72, 101, 0, 0, 0, 0]]
    rw [hPAD]
    rfl
  have hsim := sampleLoopFuel_batch1 env constFivePolicy 5 hpol 6
    (initSampleState env [[2, 72, 101]] 6 false none 0)
    ⟨0, 3, [2, 72, 101, 0, 0, 0, 0], false, 6⟩ hbuf0 rfl rfl rfl rfl
  have hfn : sampleFn env constFivePolicy
      (initSampleState env [[2, 72, 101]] 6 false none 0)
      = sampleLoopFuel env constFivePolicy 6
          (initSampleState env [[2, 72, 101]] 6 false none 0) := rfl
  have hfinalbuf : (sampleFn env constFivePolicy
      (initSampleState env [[2, 72, 101]] 6 false none 0)).token_buffer
      = [[2, 72, 101, 5, 5, 5, 5]] := by
    rw [hfn, hsim.1, hEOS]
    decide
  have hfinalnum : (sampleFn env constFivePolicy
      (initSampleState env [[2, 72, 101]] 6 false none 0)).num_input_tokens
      = [3] := by
    rw [hfn, sampleLoopFuel_num_input_tokens]
    rfl
  constructor
  · rw [samplerCall_tokens_none, hids]
    rw [show (([[2, 72, 101]] : List (List Nat)).map List.length).foldl max 0 + 3
        = 6 from by decide]
    rw [hfinalbuf, hfinalnum, hEOS, hPAD]
    rfl
  · intro fuel
    rw [hids]
    have hsim2 := sampleLoopFuel_batch1 env constFivePolicy 5 hpol fuel
      (initSampleState env [[2, 72, 101]] 6 false none 0)
      ⟨0, 3, [2, 72, 101, 0, 0, 0, 0], false, 6⟩ hbuf0 rfl rfl rfl rfl
    rw [hsim2.2, hEOS,
      projLoop_d_false 1 5 (by decide) (by decide) fuel
        ⟨0, 3, [2, 72, 101, 0, 0, 0, 0], false, 6⟩ (by decide) rfl]

/-- Witness for C9: the end-to-end constant-5 run on the concrete test
environment returns `[5, 5, 5]` and its done flag is still `[false]` after
six loop iterations. -/
theorem C9_witness :
    (samplerCall testEnv 0 [helloStr] 3 false false none constFivePolicy).map
        (fun p => p.1.tokens) = Except.ok [[5, 5, 5]] ∧
    (sampleLoopFuel testEnv constFivePolicy 6
        (initSampleState testEnv ([helloStr].map (fun x => tokenize testEnv x)) 6
          false none 0)).done = [false] :=
  ⟨(C9_end_to_end Unit testEnv rfl rfl rfl rfl).1,
    (C9_end_to_end Unit testEnv rfl rfl rfl rfl).2 6⟩

end Gemma
